import Mathlib

/-!
Shallow embedding of the signal-detection core of `src/crude_master_bot.py`
(single-file market-monitoring alert bot), together with theorems checking
the natural-language specification's claims against it.

Modelling conventions:
* Prices, RSI thresholds and percentages are rationals (`ℚ`).
* The pandas/numpy float special values that the script can actually produce
  (`nan` from `0/0`, `±inf` from `x/0`) are modelled explicitly by the `PVal`
  type; ordinary finite values carry an exact rational.  The only operations
  the script performs on these values (arithmetic, comparisons, `round`,
  `abs`) are translated case by case following IEEE-754 semantics as
  implemented by numpy (comparisons with `nan` are false, `100/inf = 0`, ...).
* Wall-clock instants are integers (seconds); `datetime` subtraction and
  `timedelta` comparisons become integer arithmetic.
* Python exceptions that can escape a detector (`IndexError` from
  `.iloc[...]` on a too-short frame) are modelled with `Except`.
-/

namespace CrudeBot

/-- Float-like value: an exact rational, `nan`, or a signed infinity.  This is
the value domain for the pandas arithmetic done by the script. -/
inductive PVal where
  | NaN : PVal
  | PInf : PVal
  | NInf : PVal
  | Num : ℚ → PVal
deriving DecidableEq

/-- IEEE-style addition on `PVal` (numpy semantics): `nan` propagates,
`inf + (-inf) = nan`, infinities absorb finite values. -/
def padd : PVal → PVal → PVal
  | PVal.NaN, _ => PVal.NaN
  | _, PVal.NaN => PVal.NaN
  | PVal.PInf, PVal.NInf => PVal.NaN
  | PVal.NInf, PVal.PInf => PVal.NaN
  | PVal.PInf, _ => PVal.PInf
  | _, PVal.PInf => PVal.PInf
  | PVal.NInf, _ => PVal.NInf
  | _, PVal.NInf => PVal.NInf
  | PVal.Num a, PVal.Num b => PVal.Num (a + b)

/-- IEEE-style negation on `PVal`. -/
def pneg : PVal → PVal
  | PVal.NaN => PVal.NaN
  | PVal.PInf => PVal.NInf
  | PVal.NInf => PVal.PInf
  | PVal.Num a => PVal.Num (-a)

/-- IEEE-style subtraction on `PVal`. -/
def psub (a b : PVal) : PVal := padd a (pneg b)

/-- IEEE-style division on `PVal` (numpy semantics): `0/0 = nan`,
`x/0 = ±inf` for `x ≠ 0`, `finite/inf = 0`, `inf/inf = nan`. -/
def pdiv : PVal → PVal → PVal
  | PVal.NaN, _ => PVal.NaN
  | _, PVal.NaN => PVal.NaN
  | PVal.PInf, PVal.PInf => PVal.NaN
  | PVal.PInf, PVal.NInf => PVal.NaN
  | PVal.NInf, PVal.PInf => PVal.NaN
  | PVal.NInf, PVal.NInf => PVal.NaN
  | PVal.PInf, PVal.Num b => if b < 0 then PVal.NInf else PVal.PInf
  | PVal.NInf, PVal.Num b => if b < 0 then PVal.PInf else PVal.NInf
  | PVal.Num _, PVal.PInf => PVal.Num 0
  | PVal.Num _, PVal.NInf => PVal.Num 0
  | PVal.Num a, PVal.Num b =>
      if b = 0 then
        (if a = 0 then PVal.NaN else if a > 0 then PVal.PInf else PVal.NInf)
      else PVal.Num (a / b)

/-- Absolute value on `PVal` (`abs(nan) = nan`, `abs(±inf) = inf`). -/
def pabs : PVal → PVal
  | PVal.NaN => PVal.NaN
  | PVal.PInf => PVal.PInf
  | PVal.NInf => PVal.PInf
  | PVal.Num a => PVal.Num |a|

/-- Comparison `v >= q` against a finite rational; any comparison with `nan`
is false, as in IEEE floats. -/
def pge (v : PVal) (q : ℚ) : Bool :=
  match v with
  | PVal.NaN => false
  | PVal.PInf => true
  | PVal.NInf => false
  | PVal.Num x => if x ≥ q then true else false

/-- Comparison `v <= q` against a finite rational; false on `nan`. -/
def ple (v : PVal) (q : ℚ) : Bool :=
  match v with
  | PVal.NaN => false
  | PVal.PInf => false
  | PVal.NInf => true
  | PVal.Num x => if x ≤ q then true else false

/-- Comparison `x > v` of a finite rational against a `PVal`; false on `nan`. -/
def pgtQ (x : ℚ) (v : PVal) : Bool :=
  match v with
  | PVal.NaN => false
  | PVal.PInf => false
  | PVal.NInf => true
  | PVal.Num y => if x > y then true else false

/-- Comparison `x < v` of a finite rational against a `PVal`; false on `nan`. -/
def pltQ (x : ℚ) (v : PVal) : Bool :=
  match v with
  | PVal.NaN => false
  | PVal.PInf => true
  | PVal.NInf => false
  | PVal.Num y => if x < y then true else false

/-- Round to the nearest integer, ties to even — the rounding used by
Python's built-in `round`. -/
def round_half_even (y : ℚ) : ℤ :=
  let f : ℤ := ⌊y⌋
  let r : ℚ := y - f
  if r < 1/2 then f
  else if r > 1/2 then f + 1
  else if f % 2 = 0 then f else f + 1

/-- Round a rational to 2 decimal places (Python `round(x, 2)`). -/
def round2 (x : ℚ) : ℚ := (round_half_even (x * 100) : ℚ) / 100

/-- Translation of `pct` (src line 72-73): `round(((b - a) / a) * 100, 2)`.
The operands are numpy floats, so `a == 0` yields `±inf` or `nan` (no
`ZeroDivisionError` is raised); `round` maps `±inf`/`nan` to themselves,
which is why the special values pass through unrounded here. -/
def pct (a b : ℚ) : PVal :=
  if a = 0 then
    (if b > 0 then PVal.PInf else if b < 0 then PVal.NInf else PVal.NaN)
  else PVal.Num (round2 ((b - a) / a * 100))

/-- CONFIG constant `VOL_1H_THRESHOLD` (src line 31). -/
def VOL_1H_THRESHOLD : ℚ := 1.2

/-- CONFIG constant `RSI_OVERBOUGHT` (src line 32). -/
def RSI_OVERBOUGHT : ℚ := 70

/-- CONFIG constant `RSI_OVERSOLD` (src line 33). -/
def RSI_OVERSOLD : ℚ := 30

/-! ### Session-open detector (src lines 92-106) -/

/-- Which session alert was sent. -/
inductive SessionKind where
  | asia : SessionKind
  | europe : SessionKind
  | us : SessionKind
deriving DecidableEq

/-- The three `*_alerted` Booleans of the global `state` dict. -/
structure SessState where
  asia : Bool
  eu : Bool
  us : Bool
deriving DecidableEq

/-- Translation of `session_alerts(now)` (src lines 92-106) for one tick.
Input is `now.hour`; output is the list of alerts sent on this tick and the
updated flags.  The three guarded sends come first, then the hour-0 reset,
exactly as in the source. -/
def session_alerts (hour : ℕ) (s : SessState) : List SessionKind × SessState :=
  let fire_asia := if hour = 6 ∧ s.asia = false then true else false
  let asia1 := s.asia || fire_asia
  let fire_eu := if hour = 13 ∧ s.eu = false then true else false
  let eu1 := s.eu || fire_eu
  let fire_us := if hour = 18 ∧ s.us = false then true else false
  let us1 := s.us || fire_us
  let s2 : SessState := if hour = 0 then ⟨false, false, false⟩ else ⟨asia1, eu1, us1⟩
  ((if fire_asia then [SessionKind.asia] else []) ++
   (if fire_eu then [SessionKind.europe] else []) ++
   (if fire_us then [SessionKind.us] else []), s2)

/-- Iterate `session_alerts` over a sequence of tick hours, collecting all
alerts in order. -/
def run_sessions : List ℕ → SessState → List SessionKind × SessState
  | [], s => ([], s)
  | h :: rest, s =>
    let p := session_alerts h s
    let q := run_sessions rest p.2
    (p.1 ++ q.1, q.2)

/-- Single-flag abstraction of one session branch of `session_alerts`:
fire when `hour = target` and the flag is clear, set the flag on fire,
clear it on any hour-0 tick.  Used to factor the three parallel branches. -/
def one_shot (target hour : ℕ) (flag : Bool) : Bool × Bool :=
  let fire := if hour = target ∧ flag = false then true else false
  let flag1 := flag || fire
  (fire, if hour = 0 then false else flag1)

/-- Number of fires of `one_shot` over a sequence of tick hours. -/
def one_shot_count (target : ℕ) : List ℕ → Bool → ℕ
  | [], _ => 0
  | h :: rest, flag =>
    let p := one_shot target h flag
    (if p.1 then 1 else 0) + one_shot_count target rest p.2

/-! ### 1h volatility detector (src lines 112-134) -/

/-- Cooldown guard of `check_1h_vol` (src line 124):
`not state["last_1h_vol"] or now - state["last_1h_vol"] > timedelta(hours=1)`.
Times are in seconds. -/
def vol_cooldown_ok (s : Option ℤ) (now : ℤ) : Bool :=
  match s with
  | none => true
  | some t => if now - t > 3600 then true else false

/-- Translation of `check_1h_vol` (src lines 112-134), with the fetched
closes, the `last_1h_vol` state and the clock passed explicitly.  Returns
whether the alert fired and the updated `last_1h_vol`.  The source returns
early when fewer than two bars are available (src line 114). -/
def check_1h_vol (closes : List ℚ) (s : Option ℤ) (now : ℤ) : Bool × Option ℤ :=
  if closes.length < 2 then (false, s)
  else
    let prev := closes.dropLast.getLastD 0
    let lastC := closes.getLastD 0
    let move := pct prev lastC
    let fired := pge (pabs move) VOL_1H_THRESHOLD && vol_cooldown_ok s now
    (fired, if fired then some now else s)

/-! ### RSI-extreme detector (src lines 140-155) -/

/-- Cooldown guard shared by both RSI branches (src lines 148 and 153):
`not state["last_rsi_alert"] or now - state["last_rsi_alert"] > timedelta(hours=2)`. -/
def rsi_cooldown_ok (last : Option ℤ) (now : ℤ) : Bool :=
  match last with
  | none => true
  | some t => if now - t > 7200 then true else false

/-- Decision part of `rsi_alert` (src lines 147-155) once the current RSI
value is known: the overbought branch runs first and, if it fires, updates
`last_rsi_alert` before the oversold branch reads it — exactly the two
sequential `if` statements of the source.  Returns whether any alert was
sent and the updated `last_rsi_alert`. -/
def rsi_step (r : PVal) (now : ℤ) (last : Option ℤ) : Bool × Option ℤ :=
  let f1 := pge r RSI_OVERBOUGHT && rsi_cooldown_ok last now
  let last1 := if f1 then some now else last
  let f2 := ple r RSI_OVERSOLD && rsi_cooldown_ok last1 now
  let last2 := if f2 then some now else last1
  (f1 || f2, last2)

/-- Iterate `rsi_step` over a sequence of (RSI value, time) ticks, collecting
the times at which an alert fired. -/
def run_rsi : List (PVal × ℤ) → Option ℤ → List ℤ × Option ℤ
  | [], s => ([], s)
  | (r, t) :: rest, s =>
    let p := rsi_step r t s
    let q := run_rsi rest p.2
    ((if p.1 then [t] else []) ++ q.1, q.2)

/-- Exceptions a detector can raise in the model. -/
inductive PyError where
  | indexError : PyError
  | fetchError : PyError
deriving DecidableEq

/-! ### RSI computation (src lines 79-86) and full `rsi_alert` -/

/-- Successive differences `x[i] - x[i-1]` of the closes after the head,
as finite `PVal`s.  Helper for `pd_diff`. -/
def diff_tail (x : ℚ) (xs : List ℚ) : List PVal :=
  List.zipWith (fun b a => PVal.Num (b - a)) xs (x :: xs)

/-- Translation of `series.diff()` (src line 80): the first entry is `nan`,
entry `i > 0` is `x[i] - x[i-1]`; an empty series stays empty. -/
def pd_diff : List ℚ → List PVal
  | [] => []
  | x :: xs => PVal.NaN :: diff_tail x xs

/-- Translation of `delta.clip(lower=0)` (src line 81); `nan` propagates. -/
def clip_lower0 : PVal → PVal
  | PVal.NaN => PVal.NaN
  | PVal.PInf => PVal.PInf
  | PVal.NInf => PVal.Num 0
  | PVal.Num x => PVal.Num (max x 0)

/-- Translation of `-delta.clip(upper=0)` (src line 82); `nan` propagates. -/
def clip_neg_upper0 : PVal → PVal
  | PVal.NaN => PVal.NaN
  | PVal.PInf => PVal.Num 0
  | PVal.NInf => PVal.PInf
  | PVal.Num x => PVal.Num (max (-x) 0)

/-- Sum of a list of `PVal`s (any `nan` in the list makes the result `nan`). -/
def psum (l : List PVal) : PVal := l.foldl padd (PVal.Num 0)

/-- Translation of `series.rolling(p).mean()` (src lines 83-84): entry `i` is
`nan` while fewer than `p` values are in the window (pandas default
`min_periods = p`), otherwise the mean of the last `p` entries; a window
containing `nan` yields `nan` (via `psum`). -/
def rolling_mean (p : ℕ) (l : List PVal) : List PVal :=
  (List.range l.length).map (fun i =>
    if i + 1 < p then PVal.NaN
    else pdiv (psum ((l.drop (i + 1 - p)).take p)) (PVal.Num p))

/-- Translation of `compute_rsi(series, period)` (src lines 79-86), returning
the whole RSI series.  `rs = avg_gain / avg_loss` is elementwise float
division, so `0/0 = nan` and `positive/0 = inf`. -/
def compute_rsi (closes : List ℚ) (period : ℕ) : List PVal :=
  let delta := pd_diff closes
  let gain := delta.map clip_lower0
  let loss := delta.map clip_neg_upper0
  let avg_gain := rolling_mean period gain
  let avg_loss := rolling_mean period loss
  let rs := List.zipWith pdiv avg_gain avg_loss
  rs.map (fun r => psub (PVal.Num 100) (pdiv (PVal.Num 100) (padd (PVal.Num 1) r)))

/-- The value `compute_rsi(close).iloc[-1]` used by `rsi_alert` (src line 143),
with the default period 14; `none` when the series is empty. -/
def compute_rsi_last (closes : List ℚ) : Option PVal := (compute_rsi closes 14).getLast?

/-- Translation of the full `rsi_alert()` (src lines 140-155) with the fetched
closes, the `last_rsi_alert` state and the clock passed explicitly.  On an
empty price series, `.iloc[-1]` raises `IndexError` (src line 143 has no
length guard), modelled as `Except.error`. -/
def rsi_alert (closes : List ℚ) (last : Option ℤ) (now : ℤ) :
    Except PyError (Bool × Option ℤ) :=
  match compute_rsi_last closes with
  | none => Except.error PyError.indexError
  | some r => Except.ok (rsi_step r now last)

/-! ### False-breakout detector (src lines 161-177) -/

/-- One OHLC bar (only the fields the detector reads). -/
structure Bar where
  high : ℚ
  low : ℚ
  close : ℚ
deriving DecidableEq

/-- Cooldown guard of `false_breakout` (src line 168):
`state["false_break_time"] and now - state["false_break_time"] < timedelta(minutes=30)`. -/
def fb_cooldown_active (fbt : Option ℤ) (now : ℤ) : Bool :=
  match fbt with
  | none => false
  | some t => if now - t < 1800 then true else false

/-- Translation of `false_breakout()` (src lines 161-177).  The slice
`data["High"].iloc[-50:-1]` becomes `(take (n-1)).drop (n-50)` (clamped Nat
subtraction matches Python's negative-index clamping); `.max()` of an empty
slice is `nan`.  `data.iloc[-2]` (src line 164) raises `IndexError` when
fewer than two bars exist — and that line runs before the cooldown check. -/
def false_breakout (bars : List Bar) (fbt : Option ℤ) (now : ℤ) :
    Except PyError (Bool × Option ℤ) :=
  let highs := bars.map Bar.high
  let sliced := (highs.take (highs.length - 1)).drop (highs.length - 50)
  let prev_high : PVal :=
    match sliced.max? with
    | none => PVal.NaN
    | some m => PVal.Num m
  if bars.length < 2 then Except.error PyError.indexError
  else
    let candle := bars.dropLast.getLastD ⟨0, 0, 0⟩
    if fb_cooldown_active fbt now then Except.ok (false, fbt)
    else if pgtQ candle.high prev_high && pltQ candle.close prev_high then
      Except.ok (true, some now)
    else Except.ok (false, fbt)

/-! ### News detector (src lines 225-233) -/

/-- CONFIG constant `NEWS_KEYWORDS` (src lines 37-40), as character lists
(Python strings compared with `in`). -/
def NEWS_KEYWORDS : List (List Char) :=
  ["oil".data, "OPEC".data, "pipeline".data, "refinery".data, "sanctions".data,
   "Middle East".data, "attack".data, "export".data, "war".data, "supply".data]

/-- Contiguous-substring test, Python's `needle in haystack` on strings. -/
def contains_sub (needle : List Char) : List Char → Bool
  | [] => needle.isEmpty
  | c :: cs => needle.isPrefixOf (c :: cs) || contains_sub needle cs

/-- Translation of the keyword test (src line 231):
`any(k in e.title.lower() for k in NEWS_KEYWORDS)`.  Note the keywords
themselves are not lowercased, exactly as in the source. -/
def news_match (title : List Char) : Bool :=
  NEWS_KEYWORDS.any (fun k => contains_sub k (title.map Char.toLower))

/-- One feed entry: publish time (seconds) and title. -/
structure Entry where
  published : ℤ
  title : List Char
deriving DecidableEq

/-- Body of the `for e in feed.entries[:5]` loop (src lines 228-233), scanning
entries in feed order against the `last_news_time` watermark `w`.  The
source nests `if published > w:` around `if any(keyword):`; an entry failing
either test leaves the watermark untouched, so the two tests combine into
one conjunction.  Returns the alerted titles in order and the final
watermark. -/
def news_scan : List Entry → ℤ → List (List Char) × ℤ
  | [], w => ([], w)
  | e :: rest, w =>
    if e.published > w ∧ news_match e.title = true then
      let p := news_scan rest e.published
      (e.title :: p.1, p.2)
    else news_scan rest w

/-- Translation of `check_news()` (src lines 225-233): only the first five
feed entries are examined. -/
def check_news (entries : List Entry) (w : ℤ) : List (List Char) × ℤ :=
  news_scan (entries.take 5) w

/-! ### Inventory-event bias (src lines 201-219) -/

/-- Possible bias labels.  `neutral` is the label the specification claims
for `actual == expected`; the source never produces it. -/
inductive Bias where
  | bullish : Bias
  | bearish : Bias
  | neutral : Bias
deriving DecidableEq

/-- Translation of the bias classification inside `inventory` (src line 210):
`bias = "📈 Bullish" if actual < expected else "📉 Bearish"`. -/
def inventory_bias (actual expected : ℚ) : Bias :=
  if actual < expected then Bias.bullish else Bias.bearish

/-! ### Main tick loop error propagation (src lines 239-259) -/

/-- Model of one iteration of `main`'s `while True` body (src lines 242-249):
the five detectors are invoked in a fixed order with no `try/except`
anywhere, so the first raising detector aborts the tick.  The input list
holds each detector's outcome in call order; the result is how many
detectors were actually invoked and the exception that escaped, if any. -/
def run_detectors : List (Except PyError Unit) → ℕ × Option PyError
  | [] => (0, none)
  | Except.ok _ :: rest =>
    let p := run_detectors rest
    (p.1 + 1, p.2)
  | Except.error e :: _ => (1, some e)

/-! ## Helper lemmas -/

theorem rsi_cooldown_ok_some (t0 now : ℤ) :
    rsi_cooldown_ok (some t0) now = true ↔ now - t0 > 7200 := by
  unfold rsi_cooldown_ok
  split <;> simp_all

theorem rsi_cooldown_ok_self (t : ℤ) : rsi_cooldown_ok (some t) t = false := by
  simp [rsi_cooldown_ok]

theorem rsi_step_fired_last (r : PVal) (t : ℤ) (s : Option ℤ)
    (h : (rsi_step r t s).1 = true) : (rsi_step r t s).2 = some t := by
  cases hb : pge r RSI_OVERBOUGHT <;> cases hb2 : ple r RSI_OVERSOLD <;>
    cases hok : rsi_cooldown_ok s t <;>
      simp_all [rsi_step, rsi_cooldown_ok_self]

theorem rsi_step_not_fired (r : PVal) (t : ℤ) (s : Option ℤ)
    (h : (rsi_step r t s).1 = false) : (rsi_step r t s).2 = s := by
  cases hb : pge r RSI_OVERBOUGHT <;> cases hb2 : ple r RSI_OVERSOLD <;>
    cases hok : rsi_cooldown_ok s t <;>
      simp_all [rsi_step, rsi_cooldown_ok_self]

theorem rsi_step_gap (r : PVal) (t t0 : ℤ)
    (h : (rsi_step r t (some t0)).1 = true) : t - t0 > 7200 := by
  cases hb : pge r RSI_OVERBOUGHT <;> cases hb2 : ple r RSI_OVERSOLD <;>
    cases hok : rsi_cooldown_ok (some t0) t <;>
      simp_all [rsi_step, rsi_cooldown_ok_self, rsi_cooldown_ok_some]

theorem run_rsi_from_some (ticks : List (PVal × ℤ)) (t0 : ℤ) :
    (∀ f ∈ (run_rsi ticks (some t0)).1, f - t0 > 7200) ∧
    (run_rsi ticks (some t0)).1.Pairwise (fun a b => b - a > 7200) := by
  induction ticks generalizing t0 with
  | nil => simp [run_rsi]
  | cons ht rest ih =>
    obtain ⟨r, t⟩ := ht
    by_cases hf : (rsi_step r t (some t0)).1 = true
    · have hlast := rsi_step_fired_last r t (some t0) hf
      have hgap := rsi_step_gap r t t0 hf
      obtain ⟨hb, hp⟩ := ih t
      simp only [run_rsi, hf, hlast, if_true, List.singleton_append]
      refine ⟨?_, ?_⟩
      · intro f hfm
        rcases List.mem_cons.mp hfm with hft | hfr
        · omega
        · have := hb f hfr; omega
      · exact List.pairwise_cons.mpr ⟨fun f hfr => hb f hfr, hp⟩
    · rw [Bool.not_eq_true] at hf
      have hlast := rsi_step_not_fired r t (some t0) hf
      simp only [run_rsi, hf, hlast, if_false, List.nil_append]
      exact ih t0

theorem run_rsi_from_none (ticks : List (PVal × ℤ)) :
    (run_rsi ticks none).1.Pairwise (fun a b => b - a > 7200) := by
  induction ticks with
  | nil => simp [run_rsi]
  | cons ht rest ih =>
    obtain ⟨r, t⟩ := ht
    by_cases hf : (rsi_step r t none).1 = true
    · have hlast := rsi_step_fired_last r t none hf
      obtain ⟨hb, hp⟩ := run_rsi_from_some rest t
      simp only [run_rsi, hf, hlast, if_true, List.singleton_append]
      exact List.pairwise_cons.mpr ⟨fun f hfr => hb f hfr, hp⟩
    · rw [Bool.not_eq_true] at hf
      have hlast := rsi_step_not_fired r t none hf
      simp only [run_rsi, hf, hlast, if_false, List.nil_append]
      exact ih

theorem session_alerts_asia (h : ℕ) (s : SessState) :
    (session_alerts h s).1.count SessionKind.asia = (if (one_shot 6 h s.asia).1 then 1 else 0) ∧
    ((session_alerts h s).2).asia = (one_shot 6 h s.asia).2 := by
  unfold session_alerts one_shot
  split_ifs <;> simp_all [List.count_append, List.count_cons]

theorem session_alerts_europe (h : ℕ) (s : SessState) :
    (session_alerts h s).1.count SessionKind.europe = (if (one_shot 13 h s.eu).1 then 1 else 0) ∧
    ((session_alerts h s).2).eu = (one_shot 13 h s.eu).2 := by
  unfold session_alerts one_shot
  split_ifs <;> simp_all [List.count_append, List.count_cons]

theorem session_alerts_us (h : ℕ) (s : SessState) :
    (session_alerts h s).1.count SessionKind.us = (if (one_shot 18 h s.us).1 then 1 else 0) ∧
    ((session_alerts h s).2).us = (one_shot 18 h s.us).2 := by
  unfold session_alerts one_shot
  split_ifs <;> simp_all [List.count_append, List.count_cons]

theorem run_sessions_count_asia (hs : List ℕ) (s : SessState) :
    (run_sessions hs s).1.count SessionKind.asia = one_shot_count 6 hs s.asia := by
  induction hs generalizing s with
  | nil => simp [run_sessions, one_shot_count]
  | cons h rest ih =>
    have hb := session_alerts_asia h s
    simp only [run_sessions, one_shot_count, List.count_append]
    rw [hb.1, ih (session_alerts h s).2, hb.2]

theorem run_sessions_count_europe (hs : List ℕ) (s : SessState) :
    (run_sessions hs s).1.count SessionKind.europe = one_shot_count 13 hs s.eu := by
  induction hs generalizing s with
  | nil => simp [run_sessions, one_shot_count]
  | cons h rest ih =>
    have hb := session_alerts_europe h s
    simp only [run_sessions, one_shot_count, List.count_append]
    rw [hb.1, ih (session_alerts h s).2, hb.2]

theorem run_sessions_count_us (hs : List ℕ) (s : SessState) :
    (run_sessions hs s).1.count SessionKind.us = one_shot_count 18 hs s.us := by
  induction hs generalizing s with
  | nil => simp [run_sessions, one_shot_count]
  | cons h rest ih =>
    have hb := session_alerts_us h s
    simp only [run_sessions, one_shot_count, List.count_append]
    rw [hb.1, ih (session_alerts h s).2, hb.2]

theorem one_shot_count_stays_zero (target : ℕ) (hs : List ℕ) (hz : ∀ h ∈ hs, h ≠ 0) :
    one_shot_count target hs true = 0 := by
  induction hs with
  | nil => rfl
  | cons h rest ih =>
    have hh : h ≠ 0 := hz h (by simp)
    have hp : one_shot target h true = (false, true) := by
      simp [one_shot, hh]
    simp only [one_shot_count, hp]
    simpa using ih (fun x hx => hz x (List.mem_cons_of_mem h hx))

theorem chain_le_head {h : ℕ} {rest : List ℕ} (hc : List.Chain' (· ≤ ·) (h :: rest)) :
    ∀ x ∈ rest, h ≤ x := by
  induction rest generalizing h with
  | nil => simp
  | cons y t ih =>
    obtain ⟨hhy, hc2⟩ := List.chain'_cons.mp hc
    intro x hx
    rcases List.mem_cons.mp hx with hxy | hxt
    · omega
    · have := ih hc2 x hxt; omega

theorem one_shot_count_once (target : ℕ) (htz : target ≠ 0) (hs : List ℕ)
    (hc : List.Chain' (· ≤ ·) hs) (hmem : target ∈ hs) :
    one_shot_count target hs false = 1 := by
  induction hs with
  | nil => simp at hmem
  | cons h rest ih =>
    by_cases hh : h = target
    · have hne0 : h ≠ 0 := by omega
      have hz : ∀ x ∈ rest, x ≠ 0 := fun x hx => by
        have h2 := chain_le_head hc x hx; omega
      have hp : one_shot target h false = (true, true) := by
        simp [one_shot, hh, htz]
      simp only [one_shot_count, hp]
      simp [one_shot_count_stays_zero target rest hz]
    · have hmem2 : target ∈ rest := by
        rcases List.mem_cons.mp hmem with he | hr
        · exact absurd he.symm hh
        · exact hr
      have hp : one_shot target h false = (false, false) := by
        simp [one_shot, hh]
      simp only [one_shot_count, hp]
      simpa using ih hc.tail hmem2

theorem round_half_even_intCast (n : ℤ) : round_half_even (n : ℚ) = n := by
  simp [round_half_even]

theorem round2_zero : round2 0 = 0 := by
  have h : ((0 : ℚ) * 100) = ((0 : ℤ) : ℚ) := by norm_num
  rw [round2, h, round_half_even_intCast]
  norm_num

theorem vol_cooldown_ok_some (t0 now : ℤ) :
    vol_cooldown_ok (some t0) now = true ↔ now - t0 > 3600 := by
  unfold vol_cooldown_ok
  split <;> simp_all

theorem pair_split (cs : List ℚ) (a b : ℚ) : cs ++ [a, b] = (cs ++ [a]) ++ [b] := by
  rw [List.append_assoc]; rfl

theorem check_1h_vol_eval (cs : List ℚ) (a b : ℚ) (s : Option ℤ) (now : ℤ) :
    check_1h_vol (cs ++ [a, b]) s now =
      (pge (pabs (pct a b)) VOL_1H_THRESHOLD && vol_cooldown_ok s now,
       if (pge (pabs (pct a b)) VOL_1H_THRESHOLD && vol_cooldown_ok s now) = true
       then some now else s) := by
  rw [pair_split cs a b]
  unfold check_1h_vol
  rw [if_neg (by simp)]
  rw [List.dropLast_concat, List.getLastD_concat, List.getLastD_concat]

/-! ## Claim C1 (RSI detector: bucket-transition edge-triggering) -/

/-- Claim C1 counterexample: the spec says the RSI sequence
[50, 75, 80, 75, 50, 20, 50] over successive ticks yields exactly two alerts
(one entering overbought, one entering oversold).  With the source's shared
2-hour cooldown and ticks 30 seconds apart (the `time.sleep(30)` loop
cadence), the run produces exactly ONE alert — the oversold reading at 20 is
swallowed by the cooldown set when overbought fired. -/
theorem c1_counterexample :
    (run_rsi [(PVal.Num 50, 0), (PVal.Num 75, 30), (PVal.Num 80, 60), (PVal.Num 75, 90),
      (PVal.Num 50, 120), (PVal.Num 20, 150), (PVal.Num 50, 180)] none).1 = [30] ∧
    ([30] : List ℤ).length ≠ 2 := by
  constructor
  · norm_num [run_rsi, rsi_step, rsi_cooldown_ok, pge, ple, RSI_OVERBOUGHT, RSI_OVERSOLD]
  · decide

/-- Claim C1 amended: the detector is cooldown-gated, not bucket-edge-gated.
An invocation fires iff the RSI is at an extreme (`>= 70` or `<= 30`) and
more than 2 hours have passed since the last RSI alert of either kind (or no
alert was ever sent); in particular the sequence [50, 75, 80, 75, 50, 20, 50]
at 30-second tick spacing produces exactly one alert, at the tick reading 75. -/
theorem c1_amended :
    (∀ (r : PVal) (t : ℤ),
      (rsi_step r t none).1 = true ↔
        (pge r RSI_OVERBOUGHT = true ∨ ple r RSI_OVERSOLD = true)) ∧
    (∀ (r : PVal) (t t0 : ℤ),
      (rsi_step r t (some t0)).1 = true ↔
        ((pge r RSI_OVERBOUGHT = true ∨ ple r RSI_OVERSOLD = true) ∧ t - t0 > 7200)) ∧
    (run_rsi [(PVal.Num 50, 0), (PVal.Num 75, 30), (PVal.Num 80, 60), (PVal.Num 75, 90),
      (PVal.Num 50, 120), (PVal.Num 20, 150), (PVal.Num 50, 180)] none).1 = [30] := by
  refine ⟨?_, ?_, ?_⟩
  · intro r t
    cases hb : pge r RSI_OVERBOUGHT <;>
      cases hb2 : ple r RSI_OVERSOLD <;>
        simp [rsi_step, rsi_cooldown_ok, rsi_cooldown_ok_self, hb, hb2]
  · intro r t t0
    by_cases hcd : t - t0 > 7200 <;>
      cases hb : pge r RSI_OVERBOUGHT <;>
        cases hb2 : ple r RSI_OVERSOLD <;>
          simp [rsi_step, rsi_cooldown_ok, rsi_cooldown_ok_self, hb, hb2, hcd]
  · norm_num [run_rsi, rsi_step, rsi_cooldown_ok, pge, ple, RSI_OVERBOUGHT, RSI_OVERSOLD]

/-- Claim C1 witness: concrete instance of the amended characterization —
an RSI of 75 with no prior alert fires. -/
theorem c1_witness : (rsi_step (PVal.Num 75) 0 none).1 = true :=
  (c1_amended.1 (PVal.Num 75) 0).mpr (Or.inl (by norm_num [pge, RSI_OVERBOUGHT]))

/-! ## Claim C2 (session-open alerts: once per day) -/

/-- Claim C2 counterexample: the claim promises each session alert fires
exactly once per day "regardless of tick frequency".  A day of ticks at the
odd hours only (every two hours) never observes `hour == 6`, so the Asia
alert fires zero times, not once. -/
theorem c2_counterexample :
    (run_sessions [1, 3, 5, 7, 9, 11, 13, 15, 17, 19, 21, 23]
      ⟨false, false, false⟩).1.count SessionKind.asia = 0 ∧ (0 : ℕ) ≠ 1 := by
  constructor
  · decide
  · decide

/-- Claim C2 amended: each session alert fires exactly once per day provided
at least one tick falls inside that session's opening hour (the detector
tests `now.hour == 6/13/18`, not `time >= threshold`): for any day of ticks
with nondecreasing hours starting from cleared flags, a tick with the exact
session hour present makes that alert fire exactly once.  The flags reset on
any tick in hour 0 (not at the date rollover itself). -/
theorem c2_amended (hs : List ℕ) (hc : List.Chain' (· ≤ ·) hs)
    (h6 : 6 ∈ hs) (h13 : 13 ∈ hs) (h18 : 18 ∈ hs) :
    (run_sessions hs ⟨false, false, false⟩).1.count SessionKind.asia = 1 ∧
    (run_sessions hs ⟨false, false, false⟩).1.count SessionKind.europe = 1 ∧
    (run_sessions hs ⟨false, false, false⟩).1.count SessionKind.us = 1 ∧
    (∀ s : SessState, (session_alerts 0 s).2 = ⟨false, false, false⟩) := by
  refine ⟨?_, ?_, ?_, fun s => rfl⟩
  · rw [run_sessions_count_asia]
    exact one_shot_count_once 6 (by decide) hs hc h6
  · rw [run_sessions_count_europe]
    exact one_shot_count_once 13 (by decide) hs hc h13
  · rw [run_sessions_count_us]
    exact one_shot_count_once 18 (by decide) hs hc h18

/-- Claim C2 witness: a concrete day of ticks covering all three session
hours fires each alert exactly once. -/
theorem c2_witness :
    (run_sessions [0, 3, 6, 9, 13, 18, 21] ⟨false, false, false⟩).1.count
      SessionKind.asia = 1 ∧
    (run_sessions [0, 3, 6, 9, 13, 18, 21] ⟨false, false, false⟩).1.count
      SessionKind.europe = 1 ∧
    (run_sessions [0, 3, 6, 9, 13, 18, 21] ⟨false, false, false⟩).1.count
      SessionKind.us = 1 := by
  have h := c2_amended [0, 3, 6, 9, 13, 18, 21]
    (by norm_num [List.chain'_cons]) (by norm_num) (by norm_num) (by norm_num)
  exact ⟨h.1, h.2.1, h.2.2.1⟩

/-! ## Claim C7 (inventory bias classification) -/

/-- Claim C7 counterexample: the spec claims `actual == expected` yields
neutral; the source's two-way conditional labels it Bearish. -/
theorem c7_counterexample :
    inventory_bias (-1.5) (-1.5) = Bias.bearish ∧ Bias.bearish ≠ Bias.neutral := by
  constructor
  · norm_num [inventory_bias]
  · decide

/-- Claim C7 amended: the bias rule is two-way — `actual < expected` is
bullish and everything else (including equality) is bearish; no input ever
produces a neutral label. -/
theorem c7_amended (a e : ℚ) :
    (inventory_bias a e = Bias.bullish ↔ a < e) ∧
    (inventory_bias a e = Bias.bearish ↔ e ≤ a) ∧
    inventory_bias a e ≠ Bias.neutral := by
  unfold inventory_bias
  rcases lt_or_le a e with h | h
  · rw [if_pos h]
    exact ⟨⟨fun _ => h, fun _ => rfl⟩,
      ⟨fun hb => Bias.noConfusion hb, fun hle => absurd h (not_lt.mpr hle)⟩,
      fun hb => Bias.noConfusion hb⟩
  · rw [if_neg (not_lt.mpr h)]
    exact ⟨⟨fun hb => Bias.noConfusion hb, fun hlt => absurd hlt (not_lt.mpr h)⟩,
      ⟨fun _ => h, fun _ => rfl⟩,
      fun hb => Bias.noConfusion hb⟩

/-- Claim C7 witness: a draw larger than expected is labelled bullish. -/
theorem c7_witness : inventory_bias (-2) (-1.5) = Bias.bullish :=
  (c7_amended (-2) (-1.5)).1.mpr (by norm_num)

/-! ## Claim C9 (per-detector error isolation in the tick loop) -/

/-- Claim C9 counterexample: the claim says every per-detector error is
caught at the detector boundary so all other detectors still run.  With the
third detector (`rsi_alert` in `main`'s call order) raising, only 3 of the
5 detectors run and the exception escapes the tick. -/
theorem c9_counterexample :
    run_detectors [Except.ok (), Except.ok (), Except.error PyError.indexError,
      Except.ok (), Except.ok ()] = (3, some PyError.indexError) ∧ (3 : ℕ) < 5 := by
  exact ⟨rfl, by decide⟩

/-- Claim C9 amended: `main` has no `try/except` around the detector calls,
so a raising detector aborts the tick: exactly the detectors up to and
including the failing one run, later detectors are skipped, and the
exception escapes the loop. -/
theorem c9_amended (k : ℕ) (e : PyError) (post : List (Except PyError Unit)) :
    run_detectors (List.replicate k (Except.ok ()) ++ Except.error e :: post) =
      (k + 1, some e) := by
  induction k with
  | zero => rfl
  | succ n ih => simp [List.replicate_succ, run_detectors, ih]

/-- Claim C9 witness: concrete instance of the amended statement. -/
theorem c9_witness :
    run_detectors (List.replicate 2 (Except.ok ()) ++
      Except.error PyError.fetchError :: [Except.ok (), Except.ok ()]) =
      (3, some PyError.fetchError) :=
  c9_amended 2 PyError.fetchError [Except.ok (), Except.ok ()]

/-! ## Claim C10 (shared RSI cooldown across both branches) -/

/-- Claim C10: both RSI branches read and write the single
`last_rsi_alert` timestamp, so over any tick sequence (any RSI values —
including transitions straight from overbought to oversold — and any
clock), any two fired RSI alerts are more than 2 hours (7200 s) apart:
nothing refires within the 2-hour window after an alert of either kind. -/
theorem c10_shared_cooldown (ticks : List (PVal × ℤ)) (s0 : Option ℤ) :
    (run_rsi ticks s0).1.Pairwise (fun a b => b - a > 7200) := by
  cases s0 with
  | none => exact run_rsi_from_none ticks
  | some t0 => exact (run_rsi_from_some ticks t0).2

/-- Claim C10 witness: concrete run (overbought at t=0, a genuine swing to
oversold at t=100 which is suppressed, oversold again at t=9000 which
fires). -/
theorem c10_witness :
    ((run_rsi [(PVal.Num 75, 0), (PVal.Num 20, 100), (PVal.Num 20, 9000)] none).1).Pairwise
      (fun a b => b - a > 7200) :=
  c10_shared_cooldown [(PVal.Num 75, 0), (PVal.Num 20, 100), (PVal.Num 20, 9000)] none

/-! ## Claim C3 (volatility-spike detector: threshold and cooldown) -/

/-- Claim C3 counterexample: the claim says a qualifying move fires whenever
at least the cooldown duration (1 hour) has elapsed.  With the move exactly
at threshold (|pct| = 1.2) and exactly 3600 seconds elapsed since
`last_fired_at`, the source's strict `> timedelta(hours=1)` comparison does
NOT fire. -/
theorem c3_counterexample :
    pabs (pct 100 98.8) = PVal.Num VOL_1H_THRESHOLD ∧ (3600 : ℤ) - 0 ≥ 3600 ∧
    (check_1h_vol [100, 98.8] (some 0) 3600).1 = false := by
  have hpct : pct 100 98.8 = PVal.Num (-1.2) := by
    rw [pct, if_neg (by norm_num)]
    have h : ((98.8 : ℚ) - 100) / 100 * 100 = -6/5 := by norm_num
    rw [h, round2]
    have h2 : ((-6 : ℚ)/5 * 100) = ((-120 : ℤ) : ℚ) := by norm_num
    rw [h2, round_half_even_intCast]
    norm_num
  refine ⟨?_, by norm_num, ?_⟩
  · rw [hpct]
    simp [pabs, VOL_1H_THRESHOLD]
    norm_num
  · have he := check_1h_vol_eval [] 100 98.8 (some 0) 3600
    simp only [List.nil_append] at he
    rw [he]
    simp [vol_cooldown_ok]

/-- Claim C3 amended: the detector fires iff the rounded absolute move is at
least the threshold AND strictly more than 1 hour (3600 s) has elapsed since
`last_1h_vol` (or it never fired); on firing it records `last_1h_vol = now`
and otherwise leaves it unchanged.  A 0% move never fires; a move exactly at
threshold fires once strictly more than an hour has passed; a qualifying
move at most an hour after the last fire does not refire. -/
theorem c3_amended :
    (∀ (cs : List ℚ) (a b : ℚ) (s : Option ℤ) (now : ℤ),
      ((check_1h_vol (cs ++ [a, b]) s now).1 = true ↔
        (pge (pabs (pct a b)) VOL_1H_THRESHOLD = true ∧
          (s = none ∨ ∃ t0, s = some t0 ∧ now - t0 > 3600))) ∧
      ((check_1h_vol (cs ++ [a, b]) s now).1 = true →
        (check_1h_vol (cs ++ [a, b]) s now).2 = some now) ∧
      ((check_1h_vol (cs ++ [a, b]) s now).1 = false →
        (check_1h_vol (cs ++ [a, b]) s now).2 = s)) ∧
    (∀ (cs : List ℚ) (a : ℚ) (s : Option ℤ) (now : ℤ),
      (check_1h_vol (cs ++ [a, a]) s now).1 = false) ∧
    (∀ t0 now : ℤ, now - t0 > 3600 →
      (check_1h_vol [100, 101.2] (some t0) now).1 = true) ∧
    (∀ t0 now : ℤ, now - t0 ≤ 3600 →
      (check_1h_vol [100, 101.2] (some t0) now).1 = false) := by
  have hthr : pge (pabs (pct 100 101.2)) VOL_1H_THRESHOLD = true := by
    have hpct : pct 100 101.2 = PVal.Num 1.2 := by
      rw [pct, if_neg (by norm_num)]
      have h : ((101.2 : ℚ) - 100) / 100 * 100 = 6/5 := by norm_num
      rw [h, round2]
      have h2 : ((6 : ℚ)/5 * 100) = ((120 : ℤ) : ℚ) := by norm_num
      rw [h2, round_half_even_intCast]
      norm_num
    rw [hpct]
    simp [pabs, pge, VOL_1H_THRESHOLD, le_abs_self]
  refine ⟨?_, ?_, ?_, ?_⟩
  · intro cs a b s now
    refine ⟨?_, ?_, ?_⟩
    · rw [check_1h_vol_eval, Bool.and_eq_true]
      cases s with
      | none => simp [vol_cooldown_ok]
      | some t0 => simp [vol_cooldown_ok_some]
    · intro h
      rw [check_1h_vol_eval] at h ⊢
      have h2 : (pge (pabs (pct a b)) VOL_1H_THRESHOLD && vol_cooldown_ok s now) = true := h
      show (if (pge (pabs (pct a b)) VOL_1H_THRESHOLD && vol_cooldown_ok s now) = true
            then some now else s) = some now
      rw [if_pos h2]
    · intro h
      rw [check_1h_vol_eval] at h ⊢
      have h2 : (pge (pabs (pct a b)) VOL_1H_THRESHOLD && vol_cooldown_ok s now) = false := h
      show (if (pge (pabs (pct a b)) VOL_1H_THRESHOLD && vol_cooldown_ok s now) = true
            then some now else s) = s
      rw [if_neg (by simp [h2])]
  · intro cs a s now
    rw [check_1h_vol_eval]
    have hz : pge (pabs (pct a a)) VOL_1H_THRESHOLD = false := by
      by_cases ha : a = 0
      · simp [pct, ha, pabs, pge]
      · rw [pct, if_neg ha]
        have h : (a - a) / a * 100 = 0 := by
          rw [sub_self, zero_div, zero_mul]
        rw [h, round2_zero]
        simp [pabs, pge, VOL_1H_THRESHOLD]
        norm_num
    simp [hz]
  · intro t0 now h
    have he := check_1h_vol_eval [] 100 101.2 (some t0) now
    simp only [List.nil_append] at he
    rw [he]
    simp only [hthr, Bool.true_and]
    exact (vol_cooldown_ok_some t0 now).mpr h
  · intro t0 now h
    have he := check_1h_vol_eval [] 100 101.2 (some t0) now
    simp only [List.nil_append] at he
    rw [he]
    have hcd : vol_cooldown_ok (some t0) now = false := by
      simp [vol_cooldown_ok]
      omega
    simp [hcd]

/-- Claim C3 witness: concrete instances of the amended statement — a move
exactly at threshold fires 3601 s after the last alert and does not fire
3600 s after it. -/
theorem c3_witness :
    (check_1h_vol [100, 101.2] (some 0) 3601).1 = true ∧
    (check_1h_vol [100, 101.2] (some 0) 3600).1 = false :=
  ⟨c3_amended.2.2.1 0 3601 (by norm_num), c3_amended.2.2.2 0 3600 (by norm_num)⟩

/-! ## Claim C8 (pct formula and divide-by-zero handling) -/

/-- Claim C8 counterexample: the claim says `a == 0` is treated as "no
signal" by the consuming detector.  In the source the operands are numpy
floats, so `pct(0, 5)` is `+inf`, `abs(inf) >= 1.2` is true, and
`check_1h_vol` FIRES on it (given a clear cooldown). -/
theorem c8_counterexample :
    pct 0 5 = PVal.PInf ∧ (check_1h_vol [0, 5] none 0).1 = true := by
  have hpct : pct 0 5 = PVal.PInf := by
    rw [pct, if_pos rfl, if_pos (by norm_num)]
  refine ⟨hpct, ?_⟩
  have he := check_1h_vol_eval [] 0 5 none 0
  simp only [List.nil_append] at he
  rw [he, hpct]
  simp [pabs, pge, vol_cooldown_ok]

/-- Claim C8 amended: `pct(a, b) = round2((b - a) / a * 100)` for `a ≠ 0`.
When `a == 0` no exception is raised, but the result is not "no signal"
either: `pct(0, b)` is `±inf` for `b ≠ 0` — a qualifying move that makes
the volatility detector fire (cooldown permitting) — and only
`pct(0, 0) = nan` yields no alert. -/
theorem c8_amended :
    (∀ a b : ℚ, a ≠ 0 → pct a b = PVal.Num (round2 ((b - a) / a * 100))) ∧
    pct 0 0 = PVal.NaN ∧
    (check_1h_vol [0, 5] none 0).1 = true ∧
    (check_1h_vol [0, 0] none 0).1 = false := by
  have hnan : pct 0 0 = PVal.NaN := by
    rw [pct, if_pos rfl, if_neg (by norm_num), if_neg (by norm_num)]
  refine ⟨fun a b ha => by rw [pct, if_neg ha], hnan, ?_, ?_⟩
  · have he := check_1h_vol_eval [] 0 5 none 0
    simp only [List.nil_append] at he
    rw [he]
    have hpct : pct 0 5 = PVal.PInf := by
      rw [pct, if_pos rfl, if_pos (by norm_num)]
    rw [hpct]
    simp [pabs, pge, vol_cooldown_ok]
  · have he := check_1h_vol_eval [] 0 0 none 0
    simp only [List.nil_append] at he
    rw [he, hnan]
    simp [pabs, pge]

/-- Claim C8 witness: the formula part of the amended claim at a concrete
nonzero base price. -/
theorem c8_witness : pct 100 50 = PVal.Num (round2 ((50 - 100) / 100 * 100)) :=
  c8_amended.1 100 50 (by norm_num)

/-! ## Claim C4 (news watermark monotonicity) -/

theorem news_scan_mono (l : List Entry) (w : ℤ) : w ≤ (news_scan l w).2 := by
  induction l generalizing w with
  | nil => simp [news_scan]
  | cons e rest ih =>
    simp only [news_scan]
    split
    · next h => exact le_trans (le_of_lt h.1) (ih e.published)
    · next => exact ih w

theorem news_scan_ge (l : List Entry) (e : Entry) (hmatch : news_match e.title = true) :
    ∀ w : ℤ, e ∈ l → e.published ≤ (news_scan l w).2 := by
  induction l with
  | nil => intro w h; simp at h
  | cons x rest ih =>
    intro w hmem
    rcases List.mem_cons.mp hmem with he | hr
    · by_cases h : x.published > w ∧ news_match x.title = true
      · have h2 : (news_scan (x :: rest) w).2 = (news_scan rest x.published).2 := by
          simp only [news_scan]
          rw [if_pos h]
        rw [h2, he]
        exact news_scan_mono rest x.published
      · have hle : e.published ≤ w := by
          rcases not_and_or.mp h with hp | hm
          · rw [he]; exact le_of_not_lt hp
          · rw [he] at hmatch; exact absurd hmatch hm
        exact le_trans hle (news_scan_mono (x :: rest) w)
    · simp only [news_scan]
      split
      · exact ih x.published hr
      · exact ih w hr

/-- Claim C4: the news watermark never regresses — after any invocation it
is at least the incoming watermark, and at least the publish time of every
keyword-matching entry among the (at most five) entries the detector
examines, whatever the order of the feed entries.  The `max` behaviour falls
out of the `published > last_news_time` guard: an already-covered entry
cannot pull the watermark back. -/
theorem c4_watermark (entries : List Entry) (w0 : ℤ) :
    w0 ≤ (check_news entries w0).2 ∧
    ∀ e ∈ entries.take 5, news_match e.title = true →
      e.published ≤ (check_news entries w0).2 := by
  refine ⟨news_scan_mono (entries.take 5) w0, ?_⟩
  intro e hmem hmatch
  exact news_scan_ge (entries.take 5) e hmatch w0 hmem

/-- Claim C4 witness: an out-of-order feed (the later item A returned first,
the earlier item B after it) leaves the watermark at A's publish time — it
does not regress to B's. -/
theorem c4_witness :
    (0 : ℤ) ≤ (check_news [⟨100, "oil spill hits".data⟩, ⟨50, "oil glut".data⟩] 0).2 ∧
    (100 : ℤ) ≤ (check_news [⟨100, "oil spill hits".data⟩, ⟨50, "oil glut".data⟩] 0).2 :=
  ⟨(c4_watermark [⟨100, "oil spill hits".data⟩, ⟨50, "oil glut".data⟩] 0).1,
   (c4_watermark [⟨100, "oil spill hits".data⟩, ⟨50, "oil glut".data⟩] 0).2
     ⟨100, "oil spill hits".data⟩ (by simp) (by decide)⟩

/-! ## Claim C6 (short price series: skip without crashing) -/

/-- Claim C6 evaluation: the guarded volatility detector does skip short
series (src line 114), and a one-bar series leaves the RSI detector alert-free
(its RSI is `nan`, which fails both comparisons).  But `rsi_alert` on an
EMPTY series raises `IndexError` from `.iloc[-1]` (src line 143), and
`false_breakout` raises `IndexError` from `data.iloc[-2]` (src line 164) on
both an empty and a one-bar series — the claimed skip-without-crash guard is
missing there. -/
theorem c6_short_series_behavior :
    check_1h_vol [] none 0 = (false, none) ∧
    check_1h_vol [50] none 0 = (false, none) ∧
    rsi_alert [] none 0 = Except.error PyError.indexError ∧
    rsi_alert [50] none 0 = Except.ok (false, none) ∧
    false_breakout [] none 0 = Except.error PyError.indexError ∧
    false_breakout [⟨50, 50, 50⟩] none 0 = Except.error PyError.indexError :=
  ⟨rfl, rfl, rfl, rfl, rfl, rfl⟩

/-! ## Claim C5 (RSI on constant / monotonically rising series) -/

theorem zipWith_map_same {α β γ δ : Type} (l : List α) (f : β → γ → δ) (g : α → β)
    (k : α → γ) : List.zipWith f (l.map g) (l.map k) = l.map (fun x => f (g x) (k x)) := by
  induction l with
  | nil => rfl
  | cons x t ih => simp [ih]

theorem getLast?_range_map {α : Type} (n : ℕ) (f : ℕ → α) :
    ((List.range (n + 1)).map f).getLast? = some (f n) := by
  rw [List.range_succ, List.map_append]
  simp [List.getLast?_concat]

theorem diff_tail_length (x : ℚ) (xs : List ℚ) : (diff_tail x xs).length = xs.length := by
  simp [diff_tail]

theorem window_mem {α : Type} (l : List α) (k m : ℕ) (v : α)
    (hv : v ∈ (l.drop k).take m) : v ∈ l :=
  List.mem_of_mem_drop (List.mem_of_mem_take hv)

/-- The last RSI value of a series with at least a full period of differences
is determined by the last 14 gains and losses: this unfolds the pandas
pipeline of `compute_rsi` at index `n` (= `xs.length`). -/
theorem compute_rsi_last_formula (x : ℚ) (xs : List ℚ) (h : 14 ≤ xs.length) :
    compute_rsi_last (x :: xs) =
      some (psub (PVal.Num 100) (pdiv (PVal.Num 100) (padd (PVal.Num 1)
        (pdiv
          (pdiv (psum ((((diff_tail x xs).map clip_lower0).drop (xs.length - 14)).take 14))
            (PVal.Num 14))
          (pdiv (psum ((((diff_tail x xs).map clip_neg_upper0).drop (xs.length - 14)).take 14))
            (PVal.Num 14)))))) := by
  have hg : (pd_diff (x :: xs)).map clip_lower0 =
      PVal.NaN :: (diff_tail x xs).map clip_lower0 := by
    simp [pd_diff, clip_lower0]
  have hl : (pd_diff (x :: xs)).map clip_neg_upper0 =
      PVal.NaN :: (diff_tail x xs).map clip_neg_upper0 := by
    simp [pd_diff, clip_neg_upper0]
  simp only [compute_rsi_last, compute_rsi, hg, hl, rolling_mean, List.length_cons,
    List.length_map, diff_tail_length]
  rw [zipWith_map_same, List.map_map, getLast?_range_map]
  simp only [Function.comp_apply]
  rw [if_neg (by omega), if_neg (by omega)]
  have harith : xs.length + 1 - 14 = (xs.length - 14) + 1 := by omega
  rw [harith, List.drop_succ_cons, List.drop_succ_cons]
  norm_num

theorem diff_tail_pos (x : ℚ) (xs : List ℚ) (hc : List.Chain' (· < ·) (x :: xs)) :
    ∀ v ∈ diff_tail x xs, ∃ d : ℚ, v = PVal.Num d ∧ 0 < d := by
  induction xs generalizing x with
  | nil => simp [diff_tail]
  | cons y t ih =>
    obtain ⟨hxy, hc2⟩ := List.chain'_cons.mp hc
    intro v hv
    have hcons : diff_tail x (y :: t) = PVal.Num (y - x) :: diff_tail y t := rfl
    rw [hcons] at hv
    rcases List.mem_cons.mp hv with hv1 | hv2
    · exact ⟨y - x, hv1, by linarith⟩
    · exact ih y hc2 v hv2

theorem diff_tail_replicate (c : ℚ) (m : ℕ) :
    diff_tail c (List.replicate m c) = List.replicate m (PVal.Num 0) := by
  induction m with
  | zero => rfl
  | succ k ih =>
    rw [List.replicate_succ]
    show PVal.Num (c - c) :: diff_tail c (List.replicate k c) = _
    rw [sub_self, ih, List.replicate_succ]

theorem foldl_padd_pos (l : List PVal) :
    (∀ v ∈ l, ∃ d : ℚ, v = PVal.Num d ∧ 0 < d) →
    ∀ a : ℚ, ∃ s : ℚ, l.foldl padd (PVal.Num a) = PVal.Num s ∧ a ≤ s ∧ (l ≠ [] → a < s) := by
  induction l with
  | nil => intro _ a; exact ⟨a, rfl, le_refl a, fun hne => absurd rfl hne⟩
  | cons v t ih =>
    intro hpos a
    obtain ⟨d, hvd, hd⟩ := hpos v (by simp)
    obtain ⟨s, hs, has, _⟩ := ih (fun u hu => hpos u (List.mem_cons_of_mem v hu)) (a + d)
    refine ⟨s, ?_, by linarith, fun _ => by linarith⟩
    rw [List.foldl_cons, hvd]
    show List.foldl padd (PVal.Num (a + d)) t = PVal.Num s
    exact hs

theorem foldl_padd_zeros (l : List PVal) :
    (∀ v ∈ l, v = PVal.Num 0) → ∀ a : ℚ, l.foldl padd (PVal.Num a) = PVal.Num a := by
  induction l with
  | nil => intro _ a; rfl
  | cons v t ih =>
    intro hz a
    rw [List.foldl_cons, hz v (by simp)]
    show List.foldl padd (PVal.Num (a + 0)) t = PVal.Num a
    rw [add_zero]
    exact ih (fun u hu => hz u (List.mem_cons_of_mem v hu)) a

/-- RSI of a strictly rising series with a full period of history: the last
14 losses are all 0, the last 14 gains are the positive diffs, so
`rs = positive/0 = inf` and the RSI saturates to exactly 100. -/
theorem compute_rsi_rising (closes : List ℚ) (hlen : 15 ≤ closes.length)
    (hc : List.Chain' (· < ·) closes) : compute_rsi_last closes = some (PVal.Num 100) := by
  cases closes with
  | nil => simp at hlen
  | cons x xs =>
    have hxs : 14 ≤ xs.length := by simp at hlen; omega
    rw [compute_rsi_last_formula x xs hxs]
    have hGpos : ∀ v ∈ (((diff_tail x xs).map clip_lower0).drop (xs.length - 14)).take 14,
        ∃ d : ℚ, v = PVal.Num d ∧ 0 < d := by
      intro v hv
      obtain ⟨w, hw, hwv⟩ := List.mem_map.mp (window_mem _ _ _ v hv)
      obtain ⟨d, hwd, hd⟩ := diff_tail_pos x xs hc w hw
      refine ⟨d, ?_, hd⟩
      rw [← hwv, hwd]
      show PVal.Num (max d 0) = PVal.Num d
      rw [max_eq_left (le_of_lt hd)]
    have hLzero : ∀ v ∈ (((diff_tail x xs).map clip_neg_upper0).drop (xs.length - 14)).take 14,
        v = PVal.Num 0 := by
      intro v hv
      obtain ⟨w, hw, hwv⟩ := List.mem_map.mp (window_mem _ _ _ v hv)
      obtain ⟨d, hwd, hd⟩ := diff_tail_pos x xs hc w hw
      rw [← hwv, hwd]
      show PVal.Num (max (-d) 0) = PVal.Num 0
      rw [max_eq_right (by linarith)]
    have hGlen : ((((diff_tail x xs).map clip_lower0).drop (xs.length - 14)).take 14).length
        = 14 := by
      simp [List.length_take, List.length_drop, diff_tail_length]
      omega
    have hGne : (((diff_tail x xs).map clip_lower0).drop (xs.length - 14)).take 14 ≠ [] := by
      intro heq
      rw [heq] at hGlen
      simp at hGlen
    obtain ⟨s, hs, h0s, hlt⟩ := foldl_padd_pos _ hGpos 0
    have hspos : 0 < s := hlt hGne
    have hG : psum ((((diff_tail x xs).map clip_lower0).drop (xs.length - 14)).take 14)
        = PVal.Num s := hs
    have hL : psum ((((diff_tail x xs).map clip_neg_upper0).drop (xs.length - 14)).take 14)
        = PVal.Num 0 := foldl_padd_zeros _ hLzero 0
    rw [hG, hL]
    have e1 : pdiv (PVal.Num s) (PVal.Num 14) = PVal.Num (s / 14) := by
      simp [pdiv]
    have e2 : pdiv (PVal.Num 0) (PVal.Num 14) = PVal.Num 0 := by
      simp [pdiv]
    have hs14 : (0 : ℚ) < s / 14 := by positivity
    have e3 : pdiv (PVal.Num (s / 14)) (PVal.Num 0) = PVal.PInf := by
      simp [pdiv, ne_of_gt hs14, hs14]
    rw [e1, e2, e3]
    have e6 : psub (PVal.Num 100) (PVal.Num 0) = PVal.Num 100 := by
      show PVal.Num (100 + -0) = PVal.Num 100
      norm_num
    show some (psub (PVal.Num 100) (PVal.Num 0)) = some (PVal.Num 100)
    rw [e6]

/-- RSI of a constant series with a full period of history: gains and losses
are all 0, `rs = 0/0 = nan`, and the RSI is `nan` — no exception, but also
not 100. -/
theorem compute_rsi_const (n : ℕ) (c : ℚ) (hn : 15 ≤ n) :
    compute_rsi_last (List.replicate n c) = some PVal.NaN := by
  obtain ⟨m, rfl⟩ : ∃ m, n = m + 1 := ⟨n - 1, by omega⟩
  have hm : 14 ≤ m := by omega
  rw [List.replicate_succ]
  have hxs : 14 ≤ (List.replicate m c).length := by simp [hm]
  rw [compute_rsi_last_formula c (List.replicate m c) hxs]
  rw [diff_tail_replicate]
  have hmap1 : (List.replicate m (PVal.Num 0)).map clip_lower0
      = List.replicate m (PVal.Num 0) := by
    rw [List.map_replicate]
    show List.replicate m (PVal.Num (max 0 0)) = _
    norm_num
  have hmap2 : (List.replicate m (PVal.Num 0)).map clip_neg_upper0
      = List.replicate m (PVal.Num 0) := by
    rw [List.map_replicate]
    show List.replicate m (PVal.Num (max (-0) 0)) = _
    norm_num
  rw [hmap1, hmap2]
  have hwin : ∀ v ∈ ((List.replicate m (PVal.Num 0)).drop
      ((List.replicate m c).length - 14)).take 14, v = PVal.Num 0 := by
    intro v hv
    exact List.eq_of_mem_replicate (window_mem _ _ _ v hv)
  have hZ : psum (((List.replicate m (PVal.Num 0)).drop
      ((List.replicate m c).length - 14)).take 14) = PVal.Num 0 :=
    foldl_padd_zeros _ hwin 0
  rw [hZ]
  have e2 : pdiv (PVal.Num 0) (PVal.Num 14) = PVal.Num 0 := by
    simp [pdiv]
  have e3 : pdiv (PVal.Num 0) (PVal.Num 0) = PVal.NaN := by
    simp [pdiv]
  rw [e2, e3]
  rfl

/-- Claim C5 counterexample: a constant 15-bar series has `avg_loss == 0`
(and `avg_gain == 0`), and the RSI computed by the source is `nan`, not the
claimed saturation value 100. -/
theorem c5_counterexample :
    compute_rsi_last (List.replicate 15 (50 : ℚ)) = some PVal.NaN ∧
    some PVal.NaN ≠ some (PVal.Num 100) := by
  refine ⟨compute_rsi_const 15 50 (by norm_num), by simp⟩

/-- Claim C5 amended: for every STRICTLY rising price series with a full
period of differences the RSI is exactly 100 (avg_loss is 0, rs saturates
through `positive/0 = inf`, no exception); for a constant series both
averages are 0, `rs = 0/0` is `nan`, and the RSI is `nan` — still no
exception, but not 100. -/
theorem c5_amended :
    (∀ closes : List ℚ, 15 ≤ closes.length → List.Chain' (· < ·) closes →
      compute_rsi_last closes = some (PVal.Num 100)) ∧
    (∀ (n : ℕ) (c : ℚ), 15 ≤ n → compute_rsi_last (List.replicate n c) = some PVal.NaN) :=
  ⟨fun closes hl hc => compute_rsi_rising closes hl hc,
   fun n c hn => compute_rsi_const n c hn⟩

/-- Claim C5 witness: the strictly rising 15-bar series 1..15 has RSI
exactly 100. -/
theorem c5_witness :
    compute_rsi_last [(1 : ℚ), 2, 3, 4, 5, 6, 7, 8, 9, 10, 11, 12, 13, 14, 15]
      = some (PVal.Num 100) :=
  c5_amended.1 [(1 : ℚ), 2, 3, 4, 5, 6, 7, 8, 9, 10, 11, 12, 13, 14, 15]
    (by simp) (by norm_num [List.chain'_cons])

end CrudeBot
